import Mathlib

/-!
# Verification of the crawle-trix crawl core

A shallow embedding, in Lean 4, of the scope engine, queueing logic, page
lifecycle bookkeeping, worker page-reuse policy and signal handling of the
crawler, translated from the TypeScript sources
(`src/models/job.ts`, `src/services/crawler.ts`, `src/main.ts`), together
with theorems settling the behavioural claims about those components.

URLs are modelled abstractly: a parsed URL is a record of its protocol, its
href-without-fragment and its fragment, so that the WHATWG parsing done by
`new URL(...)` is represented by the already-parsed record (`none` standing
for an unparseable string).  Regular expressions are modelled as arbitrary
decidable string predicates (`String → Bool`), which is exactly how
`isIncluded` consumes them (`rx.test(url)`).
-/

namespace CrawleTrix

/-! ## URL model -/

/-- A parsed URL, as produced by `new URL(...)`: its protocol (with trailing
colon, e.g. `"https:"`), its serialization without the fragment, and its
fragment (empty, or starting with `#`). -/
structure URLParts where
  protocol : String
  base : String
  hash : String
deriving DecidableEq, Repr

/-- The `href` property of a parsed URL: serialization including fragment. -/
def URLParts.href (u : URLParts) : String := u.base ++ u.hash

/-- Effect of `urlParsed.hash = ""` in `isIncluded` (`src/models/job.ts`). -/
def stripHash (u : URLParts) : URLParts := { u with hash := "" }

/-- Translation of `ScopedSeed.parseUrl` (`src/models/job.ts`): `null` for an unparseable
URL, and rejects any protocol other than `http:`/`https:`. -/
def parseUrl (cand : Option URLParts) : Option URLParts :=
  match cand with
  | none => none
  | some p =>
    if p.protocol == "http:" || p.protocol == "https:" then some p else none

/-! ## ScopeEngine: `ScopedSeed` (`src/models/job.ts`) -/

/-- The slice of `ScopedSeed.crawlConfig` consulted by `isIncluded` and
`isAtMaxDepth`: the normalized seed URL, the include and exclude regex lists
(modelled as string predicates), `maxDepth`, `maxExtraHops` and `allowHash`. -/
structure SeedScope where
  url : String
  /-- the `include` regex list (`include` is a Lean keyword, hence the suffix) -/
  includeRx : List (String → Bool)
  exclude : List (String → Bool)
  maxDepth : Nat
  maxExtraHops : Nat
  allowHash : Bool

/-- The URL against which `isIncluded` runs its scope and exclusion tests:
the parsed URL's `href` after the fragment has been stripped when the seed
does not allow fragments. -/
def normUrl (seed : SeedScope) (p : URLParts) : String :=
  (if !seed.allowHash then stripHash p else p).href

/-- Translation of `ScopedSeed.isIncluded` (`src/models/job.ts` lines 859-919),
branch for branch: parse and protocol check; fragment stripping unless
`allowHash`; early accept when the normalized URL equals the seed URL;
`inScope` iff `depth <= maxDepth` and some include regex matches; when not in
scope, continue (with `isOOS = true`) only if `!noOOS && maxExtraHops &&
extraHops <= maxExtraHops` (note the JS truthiness test on `maxExtraHops`),
else reject; finally reject when some exclude regex matches. -/
def isIncluded (seed : SeedScope) (cand : Option URLParts) (depth : Nat)
    (extraHops : Nat) (noOOS : Bool) : Option (String × Bool) :=
  match parseUrl cand with
  | none => none
  | some urlParsed0 =>
    let urlParsed := if !seed.allowHash then stripHash urlParsed0 else urlParsed0
    let url := urlParsed.href
    if url == seed.url then some (url, false)
    else
      let inScope :=
        decide (depth ≤ seed.maxDepth) && seed.includeRx.any (fun s => s url)
      let oosOk :=
        !noOOS && !(seed.maxExtraHops == 0) &&
          decide (extraHops ≤ seed.maxExtraHops)
      if !inScope && !oosOk then none
      else if seed.exclude.any (fun e => e url) then none
      else some (url, !inScope)

/-- Translation of `ScopedSeed.isAtMaxDepth` (`src/models/job.ts` lines 855-857):
`depth >= maxDepth && extraHops >= maxExtraHops`. -/
def isAtMaxDepth (seed : SeedScope) (depth extraHops : Nat) : Bool :=
  decide (depth ≥ seed.maxDepth) && decide (extraHops ≥ seed.maxExtraHops)

/-- The link-extraction skip decision in `Crawler.loadPage`
(`src/services/crawler.ts` lines 1773-1777): extraction is skipped exactly
when `seed.isAtMaxDepth(depth, extraHops)`. -/
def skipExtractionAtMaxDepth (seed : SeedScope) (depth extraHops : Nat) : Bool :=
  isAtMaxDepth seed depth extraHops

end CrawleTrix

namespace CrawleTrix

/-! ## Page lifecycle: `LoadState` and `Crawler.pageFinished` -/

/-- Modelled from the spec: the `LoadState` enum lives in `util/state.ts`,
which is not among the provided sources.  The spec fixes the order
`NONE < CONTENT_LOADED < FULL_PAGE_LOADED < EXTRACTION_DONE <
BEHAVIORS_DONE`, and comments in `src/services/crawler.ts` corroborate the
numeric values ("CONTENT_LOADED (1)", "FULL_PAGE_LOADED (2)"). -/
def LoadState.NONE : Nat := 0

/-- Value of `LoadState.CONTENT_LOADED` (see `LoadState.NONE`). -/
def LoadState.CONTENT_LOADED : Nat := 1

/-- Value of `LoadState.FULL_PAGE_LOADED` (see `LoadState.NONE`). -/
def LoadState.FULL_PAGE_LOADED : Nat := 2

/-- Value of `LoadState.EXTRACTION_DONE` (see `LoadState.NONE`). -/
def LoadState.EXTRACTION_DONE : Nat := 3

/-- Value of `LoadState.BEHAVIORS_DONE` (see `LoadState.NONE`). -/
def LoadState.BEHAVIORS_DONE : Nat := 4

/-- The slice of `PageState` consulted by `pageFinished`. -/
structure PageStateRec where
  url : String
  depth : Nat
  loadState : Nat
deriving DecidableEq, Repr

/-- The terminal marking chosen by `pageFinished`. -/
inductive FinishOutcome where
  | markFinished
  | markFailed
deriving DecidableEq, Repr

/-- Translation of `Crawler.pageFinished` (`src/services/crawler.ts` lines 964-996; the
identical duplicate draft is `src/services/crawler/index.ts` lines 168-200):
`markFinished(url)` when `data.loadState >= LoadState.FULL_PAGE_LOADED`,
`markFailed(url)` otherwise. -/
def pageFinished (data : PageStateRec) : FinishOutcome :=
  if LoadState.FULL_PAGE_LOADED ≤ data.loadState then .markFinished
  else .markFailed

end CrawleTrix

namespace CrawleTrix

/-! ## Theorems -/

/-- C2. When a worker finishes a dequeued URL, `pageFinished` marks it
finished iff `loadState ≥ FULL_PAGE_LOADED`, marks it failed otherwise, and
every URL reaching a terminal state gets exactly one of the two marks. -/
theorem pageFinished_terminal_iff (data : PageStateRec) :
    (pageFinished data = .markFinished ↔
      LoadState.FULL_PAGE_LOADED ≤ data.loadState) ∧
    (pageFinished data = .markFailed ↔
      data.loadState < LoadState.FULL_PAGE_LOADED) ∧
    (pageFinished data = .markFinished ∨ pageFinished data = .markFailed) := by
  unfold pageFinished
  by_cases h : LoadState.FULL_PAGE_LOADED ≤ data.loadState
  · simp [h]
  · simp [h, Nat.lt_of_not_le h]

/-- Witness for C2: a page with `loadState = FULL_PAGE_LOADED` is marked
finished. -/
theorem pageFinished_terminal_iff_witness :
    pageFinished ⟨"https://s/", 0, 2⟩ = .markFinished :=
  (pageFinished_terminal_iff ⟨"https://s/", 0, 2⟩).1.mpr (by decide)

/-- C10. `isAtMaxDepth` is the conjunction `depth ≥ maxDepth ∧ extraHops ≥
maxExtraHops`, and link extraction in `loadPage` is skipped for depth
reasons exactly then; in particular a page at `maxDepth` with
`extraHops < maxExtraHops` still has its links extracted. -/
theorem isAtMaxDepth_conj (seed : SeedScope) (depth extraHops : Nat) :
    (skipExtractionAtMaxDepth seed depth extraHops = isAtMaxDepth seed depth extraHops) ∧
    (isAtMaxDepth seed depth extraHops = true ↔
      seed.maxDepth ≤ depth ∧ seed.maxExtraHops ≤ extraHops) ∧
    (seed.maxDepth ≤ depth → extraHops < seed.maxExtraHops →
      skipExtractionAtMaxDepth seed depth extraHops = false) := by
  refine ⟨rfl, ?_, ?_⟩
  · simp [isAtMaxDepth, ge_iff_le]
  · intro _ h2
    simp only [skipExtractionAtMaxDepth, isAtMaxDepth, ge_iff_le,
      Bool.and_eq_false_iff, decide_eq_false_iff_not, not_le]
    omega

/-- Witness for C10: with `maxDepth = 3`, `maxExtraHops = 2`, a page at
`depth = 3, extraHops = 1` does not have extraction skipped. -/
theorem isAtMaxDepth_conj_witness :
    skipExtractionAtMaxDepth ⟨"https://s/", [], [], 3, 2, false⟩ 3 1 = false :=
  (isAtMaxDepth_conj ⟨"https://s/", [], [], 3, 2, false⟩ 3 1).2.2
    (by decide) (by decide)

end CrawleTrix

namespace CrawleTrix

/-! ## Evaluation lemmas for `isIncluded` -/

/-- Helper: on a candidate whose protocol passes the http/https check,
`isIncluded` reduces to its post-parse body over the normalized URL. -/
theorem isIncluded_eval (seed : SeedScope) (p : URLParts)
    (depth extraHops : Nat) (noOOS : Bool)
    (hproto : (p.protocol == "http:" || p.protocol == "https:") = true) :
    isIncluded seed (some p) depth extraHops noOOS =
      (let url := normUrl seed p
       if url == seed.url then some (url, false)
       else
         let inScope :=
           decide (depth ≤ seed.maxDepth) && seed.includeRx.any (fun s => s url)
         let oosOk :=
           !noOOS && !(seed.maxExtraHops == 0) &&
             decide (extraHops ≤ seed.maxExtraHops)
         if !inScope && !oosOk then none
         else if seed.exclude.any (fun e => e url) then none
         else some (url, !inScope)) := by
  simp only [isIncluded, parseUrl, hproto, if_true, normUrl]

/-- Helper: a candidate whose protocol fails the http/https check is always
rejected. -/
theorem isIncluded_bad_protocol (seed : SeedScope) (p : URLParts)
    (depth extraHops : Nat) (noOOS : Bool)
    (hproto : (p.protocol == "http:" || p.protocol == "https:") = false) :
    isIncluded seed (some p) depth extraHops noOOS = none := by
  simp only [isIncluded, parseUrl, hproto, Bool.false_eq_true, if_false]

/-- C1 counterexample input: a seed whose `maxExtraHops` is `0` (the schema
default in `src/models/seed.ts`), with an include list matching nothing. -/
def seedC1 : SeedScope :=
  { url := "https://s/", includeRx := [fun _ => false], exclude := [],
    maxDepth := 100, maxExtraHops := 0, allowHash := false }

/-- C1 counterexample input: an ordinary same-host candidate URL. -/
def urlC1 : URLParts := { protocol := "https:", base := "https://s/page", hash := "" }

/-- C1 amended-theorem witness input: `seedC1` with `maxExtraHops = 2`. -/
def seedC1w : SeedScope :=
  { url := "https://s/", includeRx := [fun _ => false], exclude := [],
    maxDepth := 100, maxExtraHops := 2, allowHash := false }

end CrawleTrix

namespace CrawleTrix

/-- C1 (counterexample). At `seedC1` (`maxExtraHops = 0`) and candidate
`urlC1`, all premises of the claim hold: the URL parses as https, differs
from the seed URL, matches no include regex at depth `1 ≤ maxDepth`, no
exclusion applies, `noOOS = false`, and `extraHops = 0 ≤ maxExtraHops = 0` —
yet `isIncluded` rejects, because the source additionally requires the JS
truthiness of `maxExtraHops`.  So acceptance does not depend only on the
comparison `extraHops ≤ seed.maxExtraHops`. -/
theorem isIncluded_oos_counterexample :
    parseUrl (some urlC1) = some urlC1 ∧
    (normUrl seedC1 urlC1 == seedC1.url) = false ∧
    (decide (1 ≤ seedC1.maxDepth) &&
      seedC1.includeRx.any (fun s => s (normUrl seedC1 urlC1))) = false ∧
    0 ≤ seedC1.maxExtraHops ∧
    seedC1.exclude = [] ∧
    isIncluded seedC1 (some urlC1) 1 0 false = none := by
  exact ⟨rfl, rfl, rfl, Nat.le.refl, rfl, rfl⟩

/-- C1 (amended). For every seed and candidate URL that parses as http/https,
is not equal to the seed URL, and is not in scope, `isIncluded` accepts the
URL with `isOOS = true` (subject to the later exclusion check) iff
`noOOS = false`, `seed.maxExtraHops ≠ 0` and
`extraHops ≤ seed.maxExtraHops`, and rejects it otherwise. -/
theorem isIncluded_oos_hop_condition (seed : SeedScope) (p : URLParts)
    (depth extraHops : Nat) (noOOS : Bool)
    (hproto : (p.protocol == "http:" || p.protocol == "https:") = true)
    (hne : (normUrl seed p == seed.url) = false)
    (hscope : (decide (depth ≤ seed.maxDepth) &&
      seed.includeRx.any (fun s => s (normUrl seed p))) = false) :
    isIncluded seed (some p) depth extraHops noOOS =
      if noOOS = false ∧ seed.maxExtraHops ≠ 0 ∧ extraHops ≤ seed.maxExtraHops
      then
        (if seed.exclude.any (fun e => e (normUrl seed p)) then none
         else some (normUrl seed p, true))
      else none := by
  rw [isIncluded_eval seed p depth extraHops noOOS hproto]
  simp only [hne, Bool.false_eq_true, if_false, hscope, Bool.not_false,
    Bool.true_and]
  by_cases h : noOOS = false ∧ seed.maxExtraHops ≠ 0 ∧
      extraHops ≤ seed.maxExtraHops
  · obtain ⟨h1, h2, h3⟩ := h
    simp [h1, h2, h3]
  · rw [if_neg h]
    rcases not_and_or.mp h with h1 | h23
    · have h1' : noOOS = true := by
        cases noOOS
        · exact absurd rfl h1
        · rfl
      simp [h1']
    · rcases not_and_or.mp h23 with h2 | h3
      · have h2' : seed.maxExtraHops = 0 := not_not.mp h2
        simp [h2']
      · simp [h3]

/-- C1 (witness for the amended theorem). At `seedC1w` (`maxExtraHops = 2`),
the same out-of-scope candidate with `extraHops = 1` is accepted with
`isOOS = true`. -/
theorem isIncluded_oos_hop_condition_witness :
    isIncluded seedC1w (some urlC1) 1 1 false = some ("https://s/page", true) := by
  rw [isIncluded_oos_hop_condition seedC1w urlC1 1 1 false rfl rfl rfl]
  decide

end CrawleTrix

namespace CrawleTrix

/-- C3 counterexample input: a seed whose exclude list matches every URL. -/
def seedC3 : SeedScope :=
  { url := "https://s/", includeRx := [], exclude := [fun _ => true],
    maxDepth := 100, maxExtraHops := 0, allowHash := false }

/-- C3 counterexample input: a candidate that normalizes to the seed URL
itself. -/
def urlC3 : URLParts := { protocol := "https:", base := "https://s/", hash := "" }

/-- C3 amended-theorem witness inputs: a seed excluding everything, and a
candidate distinct from the seed URL. -/
def seedC3w : SeedScope :=
  { url := "https://s/", includeRx := [fun _ => true], exclude := [fun _ => true],
    maxDepth := 100, maxExtraHops := 0, allowHash := false }

/-- C3 (counterexample). At `seedC3`, whose exclude list matches every URL,
the candidate `urlC3` normalizes to the seed URL itself and is accepted by
`isIncluded` — the seed-URL equality path returns before the exclusion loop
runs, so exclusion does not override that acceptance path. -/
theorem isIncluded_exclude_counterexample :
    (seedC3.exclude.any (fun e => e (normUrl seedC3 urlC3))) = true ∧
    normUrl seedC3 urlC3 = seedC3.url ∧
    isIncluded seedC3 (some urlC3) 1 0 false = some ("https://s/", false) := by
  exact ⟨rfl, rfl, rfl⟩

/-- C3 (amended). For every seed and candidate URL whose normalized form
differs from the seed URL, `isIncluded` rejects whenever any regex in
`seed.exclude` matches the normalized URL, for all values of `depth`,
`extraHops` and `noOOS`: exclusion overrides the in-scope and
out-of-scope-hop acceptance paths, but not the seed-URL equality path, which
returns before the exclusion check. -/
theorem isIncluded_exclude_rejects (seed : SeedScope) (p : URLParts)
    (depth extraHops : Nat) (noOOS : Bool)
    (hex : (seed.exclude.any (fun e => e (normUrl seed p))) = true)
    (hne : (normUrl seed p == seed.url) = false) :
    isIncluded seed (some p) depth extraHops noOOS = none := by
  by_cases hproto : (p.protocol == "http:" || p.protocol == "https:") = true
  · rw [isIncluded_eval seed p depth extraHops noOOS hproto]
    simp only [hne, Bool.false_eq_true, if_false, hex]
    split
    · rfl
    · simp
  · exact isIncluded_bad_protocol seed p depth extraHops noOOS
      (Bool.not_eq_true _ ▸ eq_false_of_ne_true hproto)

/-- C3 (witness for the amended theorem). At `seedC3w`, a candidate distinct
from the seed URL that is matched by the exclude list is rejected even
though an include regex matches it. -/
theorem isIncluded_exclude_rejects_witness :
    isIncluded seedC3w (some ⟨"https:", "https://s/page", ""⟩) 1 0 false
      = none :=
  isIncluded_exclude_rejects seedC3w ⟨"https:", "https://s/page", ""⟩ 1 0 false
    rfl rfl

end CrawleTrix

namespace CrawleTrix

/-! ## Queueing: `Crawler.queueInScopeUrls`, `Crawler.queueUrl`,
`Crawler.parseSitemap` (`src/services/crawler.ts`) -/

/-- Arguments of one `queueUrl` call: the normalized URL and the depth and
extra-hops values passed for the queue entry. -/
structure QueueReq where
  url : String
  depth : Nat
  extraHops : Nat
deriving DecidableEq, Repr

/-- Translation of `Crawler.queueInScopeUrls` (`src/services/crawler.ts`
lines 1909-1948): `depth += 1`; `newExtraHops = extraHops + 1`; each
candidate goes through `getScope` (that is, `seed.isIncluded`) at the
incremented depth and `newExtraHops`; an accepted, non-empty URL is passed
to `queueUrl` at the incremented depth, with `newExtraHops` when
`isOOS` and the caller's `extraHops` otherwise.  The result is the list of
`queueUrl` calls issued. -/
def queueInScopeUrls (seed : SeedScope) (urls : List (Option URLParts))
    (depth extraHops : Nat) (noOOS : Bool) : List QueueReq :=
  let depth1 := depth + 1
  let newExtraHops := extraHops + 1
  urls.filterMap fun possibleUrl =>
    match isIncluded seed possibleUrl depth1 newExtraHops noOOS with
    | none => none
    | some (url, isOOS) =>
      if url.isEmpty then none
      else some ⟨url, depth1, if isOOS then newExtraHops else extraHops⟩

/-- Result of `RedisCrawlState.addToQueue`, as consumed by the `switch` in
`Crawler.queueUrl` (the enum itself lives in `util/state.ts`). -/
inductive QueueState where
  | ADDED
  | LIMIT_HIT
  | DUPE_URL
deriving DecidableEq, Repr

/-- Outcome of one `Crawler.queueUrl` call: whether `addToQueue` was
invoked, the boolean returned to the caller, and the `limitHit` flag after
the call. -/
structure QueueUrlCall where
  calledAddToQueue : Bool
  ret : Bool
  limitHit : Bool
deriving DecidableEq, Repr

/-- Translation of `Crawler.queueUrl` (`src/services/crawler.ts` lines
1975-2017): if `this.limitHit` is already set, return `false` without
calling `addToQueue`; otherwise call it and switch on the result, setting
`this.limitHit` on `LIMIT_HIT`.  The store's answer is passed as an oracle
argument. -/
def queueUrl (limitHit : Bool) (addResult : QueueState) : QueueUrlCall :=
  if limitHit then ⟨false, false, limitHit⟩
  else
    match addResult with
    | .ADDED => ⟨true, true, limitHit⟩
    | .LIMIT_HIT => ⟨true, false, true⟩
    | .DUPE_URL => ⟨true, false, limitHit⟩

/-- A sequence of `queueUrl` calls, threading the `limitHit` flag. -/
def runQueueUrls (limitHit : Bool) (results : List QueueState) :
    List QueueUrlCall :=
  match results with
  | [] => []
  | r :: rest =>
    let c := queueUrl limitHit r
    c :: runQueueUrls c.limitHit rest

/-- Translation of the per-URL action of `Crawler.parseSitemap`
(`src/services/crawler.ts` line 2094): each URL the sitemap reader emits is
passed to `this.queueInScopeUrls(seedId, [url], 0, 0, true)`. -/
def parseSitemapUrlAction (seed : SeedScope) (u : Option URLParts) :
    List QueueReq :=
  queueInScopeUrls seed [u] 0 0 true

/-- Helper: with `noOOS = true` the out-of-scope allowance is disabled, so
any accepted URL carries `isOOS = false`. -/
theorem isIncluded_noOOS_not_oos (seed : SeedScope) (u : Option URLParts)
    (depth extraHops : Nat) (url : String) (b : Bool)
    (h : isIncluded seed u depth extraHops true = some (url, b)) :
    b = false := by
  cases u with
  | none => simp [isIncluded, parseUrl] at h
  | some p =>
    cases hproto : (p.protocol == "http:" || p.protocol == "https:") with
    | false =>
      rw [isIncluded_bad_protocol seed p depth extraHops true hproto] at h
      cases h
    | true =>
      rw [isIncluded_eval seed p depth extraHops true hproto] at h
      simp only [Bool.not_true, Bool.false_and, Bool.not_false, Bool.and_true] at h
      cases heq : (normUrl seed p == seed.url) with
      | true =>
        rw [if_pos heq] at h
        simp only [Option.some.injEq, Prod.mk.injEq] at h
        exact h.2.symm
      | false =>
        simp only [heq, Bool.false_eq_true, if_false] at h
        cases hsc : (decide (depth ≤ seed.maxDepth) &&
            seed.includeRx.any fun s => s (normUrl seed p)) with
        | false =>
          simp only [hsc, Bool.not_false, if_true] at h
          cases h
        | true =>
          simp only [hsc, Bool.not_true, Bool.false_eq_true, if_false] at h
          cases hex : (seed.exclude.any fun e => e (normUrl seed p)) with
          | true => simp [hex] at h
          | false =>
            simp only [hex, Bool.false_eq_true, if_false, Option.some.injEq,
              Prod.mk.injEq] at h
            exact h.2.symm

end CrawleTrix

namespace CrawleTrix

/-- C4. Every `queueUrl` call issued by `queueInScopeUrls` for a page
processed at `(depth, extraHops)` carries `depth + 1`, and carries
`extraHops + 1` exactly when the URL was accepted as out-of-scope
(`isOOS = true`), the parent's `extraHops` unchanged otherwise. -/
theorem queueInScopeUrls_child_params (seed : SeedScope)
    (urls : List (Option URLParts)) (depth extraHops : Nat) (noOOS : Bool) :
    ∀ r ∈ queueInScopeUrls seed urls depth extraHops noOOS,
      r.depth = depth + 1 ∧
      ∃ u ∈ urls, ∃ url isOOS,
        isIncluded seed u (depth + 1) (extraHops + 1) noOOS =
          some (url, isOOS) ∧
        r.url = url ∧
        r.extraHops = if isOOS then extraHops + 1 else extraHops := by
  intro r hr
  simp only [queueInScopeUrls, List.mem_filterMap] at hr
  obtain ⟨u, hu, hf⟩ := hr
  cases hinc : isIncluded seed u (depth + 1) (extraHops + 1) noOOS with
  | none => rw [hinc] at hf; cases hf
  | some res =>
    obtain ⟨url, isOOS⟩ := res
    rw [hinc] at hf
    by_cases he : url.isEmpty
    · simp only [he, if_true] at hf
      cases hf
    · simp only [he, Bool.false_eq_true, if_false, Option.some.injEq] at hf
      subst hf
      exact ⟨rfl, u, hu, url, isOOS, hinc, rfl, rfl⟩

/-- C4 witness inputs: a host-scoped seed accepting `https://s/a`. -/
def seedC4 : SeedScope :=
  { url := "https://s/", includeRx := [fun u => u == "https://s/a"],
    exclude := [], maxDepth := 100, maxExtraHops := 1, allowHash := false }

/-- C4 (witness). The in-scope child `https://s/a` discovered at
`(depth 0, extraHops 0)` is queued at depth `1` with the parent's
`extraHops`. -/
theorem queueInScopeUrls_child_params_witness :
    queueInScopeUrls seedC4 [some ⟨"https:", "https://s/a", ""⟩] 0 0 false
      = [⟨"https://s/a", 1, 0⟩] ∧
    (⟨"https://s/a", 1, 0⟩ : QueueReq).depth = 0 + 1 := by
  refine ⟨rfl, ?_⟩
  exact (queueInScopeUrls_child_params seedC4
    [some ⟨"https:", "https://s/a", ""⟩] 0 0 false ⟨"https://s/a", 1, 0⟩
    (by decide)).1

/-- C5. Once an `addToQueue` call returns `LIMIT_HIT`, the `limitHit` flag
is set, and from a set flag every subsequent `queueUrl` call in the rest of
the crawl returns `false` without invoking `addToQueue`, the flag staying
set throughout — no further URL is enqueued. -/
theorem queueUrl_limitHit_sticky (limitHit : Bool) (rest : List QueueState) :
    (queueUrl limitHit QueueState.LIMIT_HIT).limitHit = true ∧
    runQueueUrls true rest = rest.map (fun _ => ⟨false, false, true⟩) := by
  constructor
  · cases limitHit <;> rfl
  · induction rest with
    | nil => rfl
    | cons r rest ih =>
      simp [runQueueUrls, queueUrl, ih]

end CrawleTrix

namespace CrawleTrix

/-- C7 counterexample inputs: a seed with `maxDepth = 0` whose include list
matches everything, and an in-scope candidate. -/
def seedC7 : SeedScope :=
  { url := "https://s/", includeRx := [fun _ => true], exclude := [],
    maxDepth := 0, maxExtraHops := 0, allowHash := false }

/-- C7 counterexample input: candidate URL emitted by the sitemap reader. -/
def urlC7 : URLParts := { protocol := "https:", base := "https://s/page", hash := "" }

/-- C7 (counterexample). `isIncluded` at `depth = 0, extraHops = 0,
noOOS = true` accepts the sitemap URL `urlC7` for `seedC7`, so under the
claim it would be enqueued at depth `0`; but the sitemap path actually runs
`queueInScopeUrls(seedId, [url], 0, 0, true)`, which increments the depth to
`1` before the scope check, and with `maxDepth = 0` the URL is rejected and
nothing is enqueued at all. -/
theorem parseSitemap_depth_counterexample :
    isIncluded seedC7 (some urlC7) 0 0 true = some ("https://s/page", false) ∧
    parseSitemapUrlAction seedC7 (some urlC7) = [] := by
  exact ⟨rfl, rfl⟩

/-- C7 (amended). For every URL emitted by the sitemap ingester,
`queueInScopeUrls` is called with `depth = 0, extraHops = 0, noOOS = true`,
so `isIncluded` is actually invoked with `depth = 1, extraHops = 1,
noOOS = true`, and an accepted (non-empty) sitemap URL is enqueued at depth
`1` with `extraHops = 0` (since `noOOS = true` forces `isOOS = false`). -/
theorem parseSitemap_scope_args (seed : SeedScope) (u : Option URLParts) :
    parseSitemapUrlAction seed u =
      match isIncluded seed u 1 1 true with
      | none => []
      | some (url, _) => if url.isEmpty then [] else [⟨url, 1, 0⟩] := by
  unfold parseSitemapUrlAction queueInScopeUrls
  simp only [List.filterMap_cons, List.filterMap_nil]
  cases hinc : isIncluded seed u 1 1 true with
  | none => rfl
  | some res =>
    obtain ⟨url, isOOS⟩ := res
    have hb : isOOS = false :=
      isIncluded_noOOS_not_oos seed u 1 1 url isOOS hinc
    subst hb
    by_cases he : url.isEmpty
    · simp [he]
    · simp [he]

end CrawleTrix

namespace CrawleTrix

/-! ## Seed redirects: `Crawler.loadPage` and `addExtraSeed` -/

/-- Modelled from the spec: `CrawlStore.addExtraSeed` lives in
`util/state.ts`, which is not among the provided sources.  Per the spec it
appends an `(origSeedId, newUrl)` record to the persisted extra-seeds list
with deterministic numbering, the new seed id being the number of original
seeds plus the index in that list (scenario: "an extra seed with id =
(originalCount+0)").  Returns the new seed id and the updated list. -/
def addExtraSeed (extraSeeds : List (Nat × String)) (numOriginalSeeds : Nat)
    (origSeedId : Nat) (newUrl : String) : Nat × List (Nat × String) :=
  (numOriginalSeeds + extraSeeds.length, extraSeeds ++ [(origSeedId, newUrl)])

/-- The inputs of the redirect check in `Crawler.loadPage`: the page's
depth and seed id, whether the page URL is a `chrome-error://` URL, whether
the navigation ended in a download response, the final response URL and the
requested URL. -/
structure RedirectCtx where
  depth : Nat
  seedId : Nat
  isChromeError : Bool
  isDownload : Bool
  respUrl : String
  url : String
deriving DecidableEq, Repr

/-- Translation of the redirect handling in `Crawler.loadPage`
(`src/services/crawler.ts` lines 1664-1676): when `depth === 0 &&
!isChromeError && respUrl !== url && !downloadResponse`, the page's
`seedId` is reassigned to the result of `addExtraSeed`; otherwise the seed
id and the extra-seeds list are unchanged.  Returns the page's seed id
after the step and the updated extra-seeds list. -/
def loadPageRedirectSeed (ctx : RedirectCtx)
    (extraSeeds : List (Nat × String)) (numOriginalSeeds : Nat) :
    Nat × List (Nat × String) :=
  if decide (ctx.depth = 0) && !ctx.isChromeError &&
      !(ctx.respUrl == ctx.url) && !ctx.isDownload then
    addExtraSeed extraSeeds numOriginalSeeds ctx.seedId ctx.respUrl
  else (ctx.seedId, extraSeeds)

/-- C6 counterexample input: a depth-0 page whose navigation ended in a
download response at a different URL. -/
def ctxC6 : RedirectCtx :=
  { depth := 0, seedId := 0, isChromeError := false, isDownload := true,
    respUrl := "https://t/welcome", url := "https://s/" }

/-- C6 (counterexample). For the depth-0 page `ctxC6` the final response
URL differs from the requested URL, yet no extra seed is created and the
seed id stays `0`, because the navigation was a download response — the
source additionally requires `!downloadResponse` (and `!isChromeError`). -/
theorem loadPage_redirect_counterexample :
    ctxC6.depth = 0 ∧
    (ctxC6.respUrl == ctxC6.url) = false ∧
    loadPageRedirectSeed ctxC6 [] 1 = (0, []) := by
  exact ⟨rfl, rfl, rfl⟩

/-- C6 (amended). For every page dequeued at `depth = 0` whose final
response URL differs from the requested URL, provided the navigation was
not a download response and the page is not a `chrome-error://` page, an
extra seed `(origSeedId, respUrl)` is appended via `addExtraSeed` and the
PageState's seed id is rewritten to the new seed's id
(`numOriginalSeeds + extraSeeds.length`) before link extraction. -/
theorem loadPage_redirect_extra_seed (ctx : RedirectCtx)
    (extraSeeds : List (Nat × String)) (numOriginalSeeds : Nat)
    (hd : ctx.depth = 0) (hch : ctx.isChromeError = false)
    (hdl : ctx.isDownload = false)
    (hne : (ctx.respUrl == ctx.url) = false) :
    loadPageRedirectSeed ctx extraSeeds numOriginalSeeds =
      (numOriginalSeeds + extraSeeds.length,
       extraSeeds ++ [(ctx.seedId, ctx.respUrl)]) := by
  unfold loadPageRedirectSeed addExtraSeed
  simp [hd, hch, hdl, hne]

/-- C6 (witness for the amended theorem). A depth-0 non-download redirect
onto `https://t/welcome` with one original seed and no prior extra seeds
yields seed id `1` and the extra-seed record `(0, https://t/welcome)`. -/
theorem loadPage_redirect_extra_seed_witness :
    loadPageRedirectSeed
        { depth := 0, seedId := 0, isChromeError := false, isDownload := false,
          respUrl := "https://t/welcome", url := "https://s/" } [] 1
      = (1, [(0, "https://t/welcome")]) :=
  loadPage_redirect_extra_seed
    { depth := 0, seedId := 0, isChromeError := false, isDownload := false,
      respUrl := "https://t/welcome", url := "https://s/" } [] 1
    rfl rfl rfl rfl

end CrawleTrix

namespace CrawleTrix

/-! ## PageWorker page reuse (`src/models/job.ts`, `PageWorker.initPage`) -/

/-- Default value of `MAX_REUSE` (`src/models/job.ts` line 42). -/
def MAX_REUSE : Nat := 5

/-- The slice of `PageWorker` state consulted by `initPage`'s reuse
decision: the `crashed` flag, whether `opts` and `page` are non-null, the
reuse counter, the `alwaysReuse` mode, and the origin of the current page's
URL (`none` when the URL does not parse). -/
structure WorkerRec where
  crashed : Bool
  hasOpts : Bool
  hasPage : Bool
  reuseCount : Nat
  alwaysReuse : Bool
  pageOrigin : Option String
deriving DecidableEq, Repr

/-- Translation of `PageWorker.isSameOrigin` (`src/models/job.ts` lines
130-138): `new URL(this.page ? this.page.url() : "")` throws when there is
no page (the empty string does not parse), and any parse failure yields
`false`; otherwise the two origins are compared. -/
def isSameOrigin (st : WorkerRec) (newOrigin : Option String) : Bool :=
  if st.hasPage then
    match st.pageOrigin, newOrigin with
    | some a, some b => a == b
    | _, _ => false
  else false

/-- Translation of the reuse decision of `PageWorker.initPage`
(`src/models/job.ts` lines 140-144): `let reuse = !this.crashed &&
!!this.opts && !!this.page;` then, when `!this.alwaysReuse`, `reuse` is
overwritten with `this.reuseCount <= MAX_REUSE && this.isSameOrigin(url)`.
`true` means the existing window is reused; `false` means it is closed and
reopened. -/
def reuseDecision (st : WorkerRec) (newOrigin : Option String) : Bool :=
  if !st.alwaysReuse then
    decide (st.reuseCount ≤ MAX_REUSE) && isSameOrigin st newOrigin
  else !st.crashed && st.hasOpts && st.hasPage

/-- C9 counterexample input: a worker in the default mode whose window has
reported a crash but whose reuse count and origin allow reuse. -/
def workerC9 : WorkerRec :=
  { crashed := true, hasOpts := true, hasPage := true, reuseCount := 1,
    alwaysReuse := false, pageOrigin := some "https://s" }

/-- C9 (counterexample). In the default mode (`alwaysReuse = false`), a
worker whose window has reported a crash still reuses it when the reuse
count and origin allow: the `crashed` flag is not consulted on that path,
contradicting "must close and reopen ... whenever the window has reported a
crash". -/
theorem initPage_reuse_counterexample :
    workerC9.crashed = true ∧
    reuseDecision workerC9 (some "https://s") = true := by
  exact ⟨rfl, rfl⟩

/-- C9 (amended). In the default mode (`alwaysReuse = false`), `initPage`
reuses the worker's window iff the reuse count has not exceeded `MAX_REUSE`
(5) and the next URL is same-origin with the current page; the reuse count
being hit or a differing origin forces a close-and-reopen, but a reported
crash does not enter this decision (the `!crashed && opts && page`
conjunction only governs the `alwaysReuse = true` mode). -/
theorem initPage_reuse_default_mode (st : WorkerRec) (o : Option String)
    (h : st.alwaysReuse = false) :
    reuseDecision st o = true ↔
      st.reuseCount ≤ MAX_REUSE ∧ isSameOrigin st o = true := by
  simp [reuseDecision, h]

/-- C9 (witness for the amended theorem). An uncrashed worker at reuse
count 2 on the same origin reuses its window. -/
theorem initPage_reuse_default_mode_witness :
    reuseDecision
        { crashed := false, hasOpts := true, hasPage := true, reuseCount := 2,
          alwaysReuse := false, pageOrigin := some "https://s" }
        (some "https://s") = true :=
  (initPage_reuse_default_mode
      { crashed := false, hasOpts := true, hasPage := true, reuseCount := 2,
        alwaysReuse := false, pageOrigin := some "https://s" }
      (some "https://s") rfl).mpr ⟨by decide, rfl⟩

end CrawleTrix

namespace CrawleTrix

/-! ## Signal handling (`src/main.ts`, `handleTerminate`) -/

/-- The action `handleTerminate` takes on one `SIGINT`/`SIGTERM`. -/
inductive TermAction where
  /-- the crawl was already finished: log success and `process.exit(0)` -/
  | exitFinished
  /-- hard stop: `setStatusAndExit(0, "canceled")` — status `canceled`,
  exit code 0 -/
  | hardStopCanceled
  /-- first signal: `gracefulFinishOnInterrupt()` flips `interrupted` -/
  | graceful
  /-- neither branch taken: only `lastSigInt` is updated -/
  | debounce
deriving DecidableEq, Repr

/-- The process-wide state consulted by `handleTerminate`
(`src/main.ts`): whether the crawl is finished, whether the store reports
the crawl canceled (`checkCanceled`), the crawler's `interrupted` flag, the
`forceTerm` flag armed by `SIGABRT`, and the `lastSigInt` timestamp in
milliseconds. -/
structure TermState where
  finished : Bool
  storeCanceled : Bool
  interrupted : Bool
  forceTerm : Bool
  lastSigInt : Int
deriving DecidableEq, Repr

/-- Translation of `handleTerminate` (`src/main.ts` lines 16-45): exit 0
if the crawl is finished; exit canceled if the store says canceled
(`checkCanceled`); else, if not yet `interrupted`, finish gracefully
(`gracefulFinishOnInterrupt` sets `interrupted = true`); else, if
`forceTerm || Date.now() - lastSigInt > 200`, hard stop with status
`canceled` and exit code 0; in every surviving path `lastSigInt` is set to
`Date.now()`. -/
def handleTerminate (st : TermState) (now : Int) : TermAction × TermState :=
  if st.finished then (.exitFinished, st)
  else if st.storeCanceled then (.hardStopCanceled, st)
  else if !st.interrupted then
    (.graceful, { st with interrupted := true, lastSigInt := now })
  else if st.forceTerm || decide (now - st.lastSigInt > 200) then
    (.hardStopCanceled, st)
  else (.debounce, { st with lastSigInt := now })

/-- Translation of the `SIGABRT` handler (`src/main.ts` lines 51-54): it
only arms `forceTerm`. -/
def handleAbort (st : TermState) : TermState := { st with forceTerm := true }

/-- C8 (counterexample). Starting from the initial state, a first signal at
t = 1000 ms is graceful, and a second signal 100 ms later — within 200 ms —
is debounced rather than causing a hard stop: the source hard-stops only
when `Date.now() - lastSigInt > 200`, the opposite of "within 200 ms". -/
theorem handleTerminate_debounce_counterexample :
    (handleTerminate ⟨false, false, false, false, 0⟩ 1000).1
      = TermAction.graceful ∧
    ((handleTerminate ⟨false, false, false, false, 0⟩ 1000).2).interrupted
      = true ∧
    (handleTerminate
        (handleTerminate ⟨false, false, false, false, 0⟩ 1000).2 1100).1
      = TermAction.debounce ∧
    (1100 : Int) - 1000 ≤ 200 := by
  refine ⟨rfl, rfl, rfl, by decide⟩

/-- C8 (amended). After a first `SIGINT`/`SIGTERM` has initiated graceful
shutdown (`interrupted = true`, crawl neither finished nor canceled), a
subsequent `SIGINT`/`SIGTERM` causes a hard stop — crawl status `canceled`,
exit code 0 — iff `forceTerm` is armed (a `SIGABRT` arrived previously) or
more than 200 ms have elapsed since the previous signal; a second signal
within 200 ms only updates `lastSigInt`.  `SIGABRT` arms `forceTerm`. -/
theorem handleTerminate_hard_stop_iff (st : TermState) (now : Int)
    (hf : st.finished = false) (hc : st.storeCanceled = false)
    (hi : st.interrupted = true) :
    ((handleTerminate st now).1 = TermAction.hardStopCanceled ↔
      st.forceTerm = true ∨ 200 < now - st.lastSigInt) ∧
    (handleAbort st).forceTerm = true := by
  refine ⟨?_, rfl⟩
  cases hft : st.forceTerm with
  | true => simp [handleTerminate, hf, hc, hi, hft]
  | false =>
    by_cases ht : now - st.lastSigInt > 200
    · simp [handleTerminate, hf, hc, hi, hft, ht]
    · simp [handleTerminate, hf, hc, hi, hft, ht]

/-- C8 (witness for the amended theorem). With graceful shutdown begun at
t = 0 and `forceTerm` unarmed, a signal at t = 1000 ms (more than 200 ms
later) hard-stops with status canceled. -/
theorem handleTerminate_hard_stop_iff_witness :
    (handleTerminate ⟨false, false, true, false, 0⟩ 1000).1
      = TermAction.hardStopCanceled :=
  ((handleTerminate_hard_stop_iff ⟨false, false, true, false, 0⟩ 1000
      rfl rfl rfl).1).mpr (Or.inr (by decide))

end CrawleTrix
